import Mathlib

/-!
Shallow embedding of `btb/tuning/gp.py` (classes `GP`, `GPEi`, `GPMatern52Ei`,
`GPEiVelocity`).

Numeric values are modelled over `ℝ`.  Where the claim under scrutiny is about
IEEE-754 degeneracies (NaN / ±Inf produced by numpy), we additionally use the
explicit value type `FV` below, whose arithmetic mirrors the IEEE rules for the
exact operations the source performs (`1.0/0.0 = +inf`, `0.0 * inf = nan`,
`np.mean([]) = nan`, comparisons with `nan` are false, ...).

External collaborators (the sklearn regression engine, the `Uniform` fallback
selector, `np.random.random()`) are passed in as explicit parameters of the
embedded functions, exactly at the call sites where the source consults them.
-/

noncomputable section

/-- IEEE-like float value: `nan`, `+inf`, `-inf`, or a finite real. -/
inductive FV : Type
  | nan : FV
  | inf : FV
  | ninf : FV
  | fin : ℝ → FV

namespace FV

/-- IEEE subtraction on `FV` (NaN propagates, `inf - inf = nan`). -/
def sub : FV → FV → FV
  | .nan, _ => .nan
  | _, .nan => .nan
  | .inf, .inf => .nan
  | .inf, _ => .inf
  | .ninf, .ninf => .nan
  | .ninf, _ => .ninf
  | .fin _, .inf => .ninf
  | .fin _, .ninf => .inf
  | .fin x, .fin y => .fin (x - y)

/-- IEEE addition on `FV` (NaN propagates, `inf + (-inf) = nan`). -/
def add : FV → FV → FV
  | .nan, _ => .nan
  | _, .nan => .nan
  | .inf, .ninf => .nan
  | .ninf, .inf => .nan
  | .inf, _ => .inf
  | _, .inf => .inf
  | .ninf, _ => .ninf
  | _, .ninf => .ninf
  | .fin x, .fin y => .fin (x + y)

/-- IEEE multiplication on `FV` (`0 * ±inf = nan`, signs as usual). -/
def mul : FV → FV → FV
  | .nan, _ => .nan
  | _, .nan => .nan
  | .inf, .inf => .inf
  | .inf, .ninf => .ninf
  | .ninf, .inf => .ninf
  | .ninf, .ninf => .inf
  | .inf, .fin x => if 0 < x then .inf else if x < 0 then .ninf else .nan
  | .fin x, .inf => if 0 < x then .inf else if x < 0 then .ninf else .nan
  | .ninf, .fin x => if 0 < x then .ninf else if x < 0 then .inf else .nan
  | .fin x, .ninf => if 0 < x then .ninf else if x < 0 then .inf else .nan
  | .fin x, .fin y => .fin (x * y)

/-- IEEE division on `FV` (`x/0 = ±inf` for `x ≠ 0`, `0/0 = nan`,
`inf/inf = nan`, finite over infinite is `0`; signed zero is not modelled). -/
def div : FV → FV → FV
  | .nan, _ => .nan
  | _, .nan => .nan
  | .inf, .inf => .nan
  | .inf, .ninf => .nan
  | .ninf, .inf => .nan
  | .ninf, .ninf => .nan
  | .inf, .fin y => if 0 ≤ y then .inf else .ninf
  | .ninf, .fin y => if 0 ≤ y then .ninf else .inf
  | .fin _, .inf => .fin 0
  | .fin _, .ninf => .fin 0
  | .fin x, .fin y =>
      if y = 0 then (if 0 < x then .inf else if x < 0 then .ninf else .nan)
      else .fin (x / y)

/-- IEEE strict order on `FV`: any comparison with `nan` is false. -/
def lt : FV → FV → Prop
  | .fin a, .fin b => a < b
  | .fin _, .inf => True
  | .ninf, .fin _ => True
  | .ninf, .inf => True
  | _, _ => False

/-- The value is a finite real lying in `[0, 1]` (false for `nan`/`±inf`,
matching the IEEE outcome of the comparison `0 <= v <= 1`). -/
def mem01 : FV → Prop
  | .fin x => 0 ≤ x ∧ x ≤ 1
  | _ => False

end FV

/-- Standard normal density: models `scipy.stats.norm.pdf`. -/
def normPdf (t : ℝ) : ℝ := (Real.sqrt (2 * Real.pi))⁻¹ * Real.exp (-(t ^ 2) / 2)

/-- Standard normal CDF, written as `Φ(z) = 1/2 + ∫ t in 0..z, φ(t)`
(so that `Φ(0) = 1/2` and `Φ' = φ`): models `scipy.stats.norm.cdf`. -/
def normCdf (z : ℝ) : ℝ := 1 / 2 + ∫ t in (0 : ℝ)..z, normPdf t

/-- Models `scipy.stats.norm.cdf` on IEEE values:
`cdf(+inf) = 1`, `cdf(-inf) = 0`, `cdf(nan) = nan`. -/
def FV.cdf : FV → FV
  | .nan => .nan
  | .inf => .fin 1
  | .ninf => .fin 0
  | .fin x => .fin (normCdf x)

/-- Models `scipy.stats.norm.pdf` on IEEE values:
`pdf(±inf) = 0`, `pdf(nan) = nan`. -/
def FV.pdf : FV → FV
  | .nan => .nan
  | .inf => .fin 0
  | .ninf => .fin 0
  | .fin x => .fin (normPdf x)

/-- Embeds `GPEi.compute_ei(mu, sigma, t)` (gp.py lines 74-93) over the reals:
`z = (mu - t) / sigma; ei = sigma * (z * Phi(z) + N(z))`
with `Phi = norm.cdf` and `N = norm.pdf`.  The intermediate `z` of the
source is inlined. -/
def compute_ei (mu sigma t : ℝ) : ℝ :=
  sigma * (((mu - t) / sigma) * normCdf ((mu - t) / sigma)
    + normPdf ((mu - t) / sigma))

/-- Embeds `GPEi.compute_ei` under the IEEE float semantics of numpy/scipy: the same
expression `sigma * (z * Phi(z) + N(z))` with `z = (mu - t) / sigma`, but
evaluated in `FV`, where division by zero produces `±inf` and `0 * inf = nan`.
The source contains no guard for `sigma = 0`. -/
def compute_ei_float (mu sigma t : FV) : FV :=
  sigma.mul ((((mu.sub t).div sigma).mul ((mu.sub t).div sigma).cdf).add
    ((mu.sub t).div sigma).pdf)

/-- Models `np.mean` of a list: `nan` on the empty list, else the arithmetic mean. -/
def npMean (l : List ℝ) : FV :=
  if l = [] then .nan else .fin (l.sum / l.length)

/-- Models `np.exp` on IEEE values: `exp(nan) = nan`, `exp(+inf) = +inf`,
`exp(-inf) = 0`. -/
def npExp : FV → FV
  | .nan => .nan
  | .inf => .inf
  | .ninf => .fin 0
  | .fin x => .fin (Real.exp x)

/-- Models `np.max` of a list (maximum element; the source only applies it to the
non-empty observation history `self.y`). -/
def npMax : List ℝ → ℝ
  | [] => 0
  | [x] => x
  | x :: y :: t => max x (npMax (y :: t))

/-- Models `np.argmax` of a list: index of the FIRST occurrence of the maximum. -/
def npArgmax : List ℝ → ℕ
  | [] => 0
  | [_] => 0
  | x :: y :: t => if x < npMax (y :: t) then npArgmax (y :: t) + 1 else 0

/-- sklearn kernel configuration. `GaussianProcessRegressor()` with no
`kernel` argument uses sklearn's default kernel; `Matern` carries `nu`. -/
inductive Kernel : Type
  | sklearnDefault : Kernel
  | matern : ℝ → Kernel

/-- The configuration of a `GaussianProcessRegressor` instance, as far as
gp.py sets it: the kernel and the `normalize_y` flag. -/
structure GPRegressor where
  kernel : Kernel
  normalize_y : Bool

/-- The mutable attributes of a tuner instance that gp.py reads or writes:
`self.X`, `self.y`, `self.r_minimum`, `self.gp`, `self.POU`.
`gp = none` models the attribute not having been (re)assigned by a
sufficient-data `fit`; `POU` is only meaningful after `GPEiVelocity.fit`
assigns it (the constructors below initialise it to `fin 0`). -/
structure TunerState where
  X : List (List ℝ)
  y : List ℝ
  r_minimum : ℕ
  gp : Option GPRegressor
  POU : FV

/-- Modelled from the spec: `BaseTuner.fit` of `btb/tuning/tuner.py` is not
under `src/`; spec §4.1 says `fit(X, y)` stores `X`, `y` (replacing the
observation history wholesale). -/
def BaseTuner.fit (s : TunerState) (X : List (List ℝ)) (y : List ℝ) :
    TunerState :=
  { s with X := X, y := y }

/-- Embeds `GP.__init__` (gp.py lines 26-28): stores `r_minimum`; no regressor has
been assigned yet. -/
def GP.init (r_minimum : ℕ) : TunerState :=
  { X := [], y := [], r_minimum := r_minimum, gp := none, POU := FV.fin 0 }

/-- Embeds `GPMatern52Ei.__init__` (gp.py lines 115-118): after `super().__init__`,
sets `self.gp = GaussianProcessRegressor(kernel=Matern(nu=5/2), normalize_y=True)`. -/
def GPMatern52Ei.init (r_minimum : ℕ) : TunerState :=
  { X := [], y := [], r_minimum := r_minimum,
    gp := some { kernel := Kernel.matern (5 / 2), normalize_y := true },
    POU := FV.fin 0 }

/-- Embeds `GP.fit` (gp.py lines 30-41): store the history, then — only when
`X.shape[0] >= r_minimum` — assign `self.gp = GaussianProcessRegressor(normalize_y=True)`
(the sklearn DEFAULT kernel) and fit it.  When data is insufficient it
returns early, leaving any previous `self.gp` in place. -/
def GP.fit (s : TunerState) (X : List (List ℝ)) (y : List ℝ) : TunerState :=
  let s1 := BaseTuner.fit s X y
  if X.length < s1.r_minimum then s1
  else { s1 with
         gp := some { kernel := Kernel.sklearnDefault, normalize_y := true } }

/-- The two shapes `predict` can return: a single score per candidate (the
`(n, 1)` array produced by the `Uniform` fallback selector) or one
`(mean, stdev)` row per candidate (the `(n, 2)` array from the trained
engine). -/
inductive Predictions : Type
  | one : List ℝ → Predictions
  | two : List (ℝ × ℝ) → Predictions

/-- Number of candidate rows of a prediction array. -/
def Predictions.numCandidates : Predictions → ℕ
  | .one scores => scores.length
  | .two rows => rows.length

/-- Models `predictions[:, 0]`: the first column.  (`Predictions.one` stands for an
`(n, 1)` array, so its column 0 is the score list itself.) -/
def Predictions.col0 : Predictions → List ℝ
  | .one scores => scores
  | .two rows => rows.map Prod.fst

/-- Embeds `GP.predict` (gp.py lines 43-50).  If `self.X.shape[0] < r_minimum`, log a
degraded-mode notice and return `Uniform(self.tunables).predict(X)` — the
external uniform selector's output, passed here as `uniformPred` (`Uniform`
is Modelled from the spec: `btb/tuning/uniform.py` is not under `src/`; per
spec §1/§8 it yields one equal-priority score per candidate).  Otherwise
query `self.gp.predict(X, return_std=True)`: the external engine, passed as
the function `engine`, applied to the stored regressor configuration. -/
def GP.predict (s : TunerState) (uniformPred : List ℝ)
    (engine : Option GPRegressor → List (ℝ × ℝ)) : Predictions :=
  if s.X.length < s.r_minimum then Predictions.one uniformPred
  else Predictions.two (engine s.gp)

/-- Embeds `GP._acquire` (gp.py lines 53-59): `np.argmax(predictions[:, 0])`. -/
def GP.acquire (p : Predictions) : ℕ := npArgmax p.col0

/-- Embeds `GPEi._acquire` (gp.py lines 95-105): if the predictions do not form an
`(n, 2)` array (uniform fallback shape), defer to `GP._acquire`; otherwise
`mu, sigma = predictions.T; y_best = np.max(self.y);`
`np.argmax(compute_ei(mu, sigma, y_best))`. -/
def GPEi.acquire (y : List ℝ) (p : Predictions) : ℕ :=
  match p with
  | .one _ => GP.acquire p
  | .two rows => npArgmax (rows.map fun r => compute_ei r.1 r.2 (npMax y))

/-- Constant `GPEiVelocity.MULTIPLIER` (gp.py line 126). -/
def MULTIPLIER : ℝ := -100

/-- Constant `GPEiVelocity.N_BEST_Y` (gp.py line 127). -/
def N_BEST_Y : ℕ := 5

/-- Embeds `sorted(y)[-N_BEST_Y:]` (gp.py line 142): the top `N_BEST_Y` scores in
ascending order (all of them when there are fewer). -/
def top_y (y : List ℝ) : List ℝ :=
  let s := y.insertionSort (· ≤ ·)
  s.drop (s.length - N_BEST_Y)

/-- Embeds `[top_y[i + 1] - top_y[i] for i in range(len(top_y) - 1)]`
(gp.py line 143): consecutive differences. -/
def velocities (l : List ℝ) : List ℝ := List.zipWith (· - ·) l.tail l

/-- Embeds `GPEiVelocity.fit` (gp.py lines 129-147): train like `GP.fit`, set
`self.POU = 0`, and when `len(y) >= r_minimum` overwrite it with
`np.exp(MULTIPLIER * np.mean(velocities))`. -/
def GPEiVelocity.fit (s : TunerState) (X : List (List ℝ)) (y : List ℝ) :
    TunerState :=
  let s1 := GP.fit s X y
  let s2 := { s1 with POU := FV.fin 0 }
  if s2.r_minimum ≤ y.length then
    { s2 with
      POU := npExp (FV.mul (FV.fin MULTIPLIER)
        (npMean (velocities (top_y y)))) }
  else s2

/-- Models `np.random.random() < self.POU` with IEEE comparison semantics (false
when `POU` is `nan`). -/
def randLt (r : ℝ) : FV → Prop
  | .fin p => r < p
  | .inf => True
  | .ninf => False
  | .nan => False

instance (r : ℝ) : (v : FV) → Decidable (randLt r v)
  | .fin p => inferInstanceAs (Decidable (r < p))
  | .inf => inferInstanceAs (Decidable True)
  | .ninf => inferInstanceAs (Decidable False)
  | .nan => inferInstanceAs (Decidable False)

/-- Embeds `GPEiVelocity.predict` (gp.py lines 149-158): with probability `POU`
(coin-flip `np.random.random() < self.POU`, the drawn number passed here as
`rand`) return the uniform selector's prediction, otherwise proceed as
`GP.predict`. -/
def GPEiVelocity.predict (s : TunerState) (rand : ℝ) (uniformPred : List ℝ)
    (engine : Option GPRegressor → List (ℝ × ℝ)) : Predictions :=
  if randLt rand s.POU then Predictions.one uniformPred
  else GP.predict s uniformPred engine

end

noncomputable section

/-! ### Basic facts about `npMax` / `npArgmax` -/

theorem getD_le_npMax (l : List ℝ) (j : ℕ) (hj : j < l.length) :
    l.getD j 0 ≤ npMax l := by
  induction l generalizing j with
  | nil => simp at hj
  | cons x t ih =>
    cases t with
    | nil =>
      cases j with
      | zero => simp [npMax]
      | succ k => simp at hj
    | cons b t2 =>
      cases j with
      | zero => simp [npMax]
      | succ k =>
        have hk : k < (b :: t2).length := by simpa using hj
        calc (x :: b :: t2).getD (k + 1) 0 = (b :: t2).getD k 0 := by
              simp [List.getD_cons_succ]
          _ ≤ npMax (b :: t2) := ih k hk
          _ ≤ npMax (x :: b :: t2) := by
              simp [npMax]

theorem npArgmax_lt_length (l : List ℝ) (h : l ≠ []) :
    npArgmax l < l.length := by
  induction l with
  | nil => exact absurd rfl h
  | cons x t ih =>
    cases t with
    | nil => simp [npArgmax]
    | cons b t2 =>
      by_cases hx : x < npMax (b :: t2)
      · have hrec := ih (by simp)
        simp only [npArgmax, if_pos hx, List.length_cons] at hrec ⊢
        omega
      · simp [npArgmax, if_neg hx]

theorem getD_npArgmax (l : List ℝ) (h : l ≠ []) :
    l.getD (npArgmax l) 0 = npMax l := by
  induction l with
  | nil => exact absurd rfl h
  | cons x t ih =>
    cases t with
    | nil => simp [npArgmax, npMax]
    | cons b t2 =>
      by_cases hx : x < npMax (b :: t2)
      · have hrec := ih (by simp)
        simp only [npArgmax, if_pos hx, List.getD_cons_succ]
        rw [hrec]
        simp [npMax, max_eq_right (le_of_lt hx)]
      · simp [npArgmax, if_neg hx, npMax, max_eq_left (le_of_not_lt hx)]

theorem col0_length (p : Predictions) : p.col0.length = p.numCandidates := by
  cases p <;> simp [Predictions.col0, Predictions.numCandidates]

/-! ### Claim theorems (first batch) -/

/-- C2: the source `compute_ei` has NO guard for `sigma = 0`: with `mu = 1`,
`sigma = 0`, `t = 0`, the float computation produces `z = 1/0 = +inf` and
`ei = 0 * (inf * 1 + 0) = nan` — a NaN is propagated instead of the EI = 0
the specification requires. -/
theorem compute_ei_zero_sigma_nan :
    compute_ei_float (FV.fin 1) (FV.fin 0) (FV.fin 0) = FV.nan := by
  norm_num [compute_ei_float, FV.sub, FV.div, FV.mul, FV.add, FV.cdf, FV.pdf]

/-- C3: after a sufficient-data `fit`, the regressor consulted by `predict`
is the DEFAULT-kernel `GaussianProcessRegressor(normalize_y=True)` assigned
by `GP.fit`, not the Matérn-5/2 regressor that `GPMatern52Ei.__init__`
installed: `GP.fit` unconditionally overwrites `self.gp`. -/
theorem matern_kernel_discarded_by_fit (up : List ℝ)
    (engine : Option GPRegressor → List (ℝ × ℝ)) :
    (GP.fit (GPMatern52Ei.init 2) [[1], [2]] [0, 1]).gp
        = some { kernel := Kernel.sklearnDefault, normalize_y := true } ∧
    GP.predict (GP.fit (GPMatern52Ei.init 2) [[1], [2]] [0, 1]) up engine
        = Predictions.two
            (engine (some { kernel := Kernel.sklearnDefault,
                            normalize_y := true })) := by
  constructor <;>
    simp [GP.fit, BaseTuner.fit, GPMatern52Ei.init, GP.predict]

/-- C6: on every `GPEiVelocity.fit`, the stored POU is `0` when the
observation count is below `r_minimum`, and otherwise
`np.exp((-100) * np.mean(velocities(top_y(y))))`, where `top_y` is the top
`N_BEST_Y = 5` scores in ascending order and `velocities` their consecutive
differences. -/
theorem velocity_fit_pou_formula (s : TunerState) (X : List (List ℝ))
    (y : List ℝ) :
    (GPEiVelocity.fit s X y).POU =
      if s.r_minimum ≤ y.length then
        npExp (FV.mul (FV.fin (-100)) (npMean (velocities (top_y y))))
      else FV.fin 0 := by
  by_cases hX : X.length < s.r_minimum <;>
    by_cases hy : s.r_minimum ≤ y.length <;>
      simp [GPEiVelocity.fit, GP.fit, BaseTuner.fit, MULTIPLIER, hX, hy]

/-- C8: for every non-empty prediction array of either shape, both
`GP._acquire` and `GPEi._acquire` return an index strictly below the number
of candidates. -/
theorem acquire_index_valid (y : List ℝ) (p : Predictions)
    (h : p.numCandidates ≠ 0) :
    GP.acquire p < p.numCandidates ∧ GPEi.acquire y p < p.numCandidates := by
  have hcol : p.col0 ≠ [] := by
    have := col0_length p
    intro hnil
    rw [hnil] at this
    simp at this
    omega
  have hGP : GP.acquire p < p.numCandidates := by
    rw [← col0_length]
    exact npArgmax_lt_length _ hcol
  refine ⟨hGP, ?_⟩
  cases p with
  | one scores => exact hGP
  | two rows =>
    have hrows : rows ≠ [] := by
      intro hnil
      rw [hnil] at h
      simp [Predictions.numCandidates] at h
    have hmap : (rows.map fun r => compute_ei r.1 r.2 (npMax y)) ≠ [] := by
      simpa using hrows
    have := npArgmax_lt_length _ hmap
    simpa [GPEi.acquire, Predictions.numCandidates] using this

/-- Witness for C8 at a concrete one-row prediction array. -/
theorem acquire_index_valid_witness :
    (Predictions.two [((0 : ℝ), (1 : ℝ))]).numCandidates ≠ 0 ∧
    (GP.acquire (Predictions.two [((0 : ℝ), (1 : ℝ))])
        < (Predictions.two [((0 : ℝ), (1 : ℝ))]).numCandidates ∧
      GPEi.acquire [(1 : ℝ)] (Predictions.two [((0 : ℝ), (1 : ℝ))])
        < (Predictions.two [((0 : ℝ), (1 : ℝ))]).numCandidates) :=
  ⟨by simp [Predictions.numCandidates],
    acquire_index_valid [(1 : ℝ)] (Predictions.two [((0 : ℝ), (1 : ℝ))])
      (by simp [Predictions.numCandidates])⟩

end

noncomputable section

theorem getD_map_lt {α β : Type} (f : α → β) (l : List α) (j : ℕ)
    (hj : j < l.length) (d : α) (d2 : β) :
    (l.map f).getD j d2 = f (l.getD j d) := by
  induction l generalizing j with
  | nil => simp at hj
  | cons a t ih =>
    cases j with
    | zero => simp
    | succ k =>
      simp only [List.map_cons, List.getD_cons_succ]
      exact ih k (by simpa using hj)

/-- C4: after any `fit` with fewer observations than `r_minimum`, `predict`
returns exactly the uniform selector's output, for every external engine
(i.e. the engine is never consulted), on both the `GP.predict` path shared
by `GP`/`GPEi`/`GPMatern52Ei` and the `GPEiVelocity.predict` path (whose
POU is `0` in that state, so the coin-flip never triggers).  The embedded
functions return normally: the degraded path raises nothing. -/
theorem predict_below_r_minimum_uses_uniform (s : TunerState)
    (X : List (List ℝ)) (y : List ℝ) (up : List ℝ)
    (engine : Option GPRegressor → List (ℝ × ℝ)) (rand : ℝ)
    (hX : X.length < s.r_minimum) (hlen : y.length = X.length)
    (hrand : 0 ≤ rand) :
    GP.predict (GP.fit s X y) up engine = Predictions.one up ∧
    GPEiVelocity.predict (GPEiVelocity.fit s X y) rand up engine
      = Predictions.one up := by
  have hy : ¬ s.r_minimum ≤ y.length := by omega
  have hnr : ¬ rand < (0 : ℝ) := not_lt.2 hrand
  constructor
  · simp [GP.predict, GP.fit, BaseTuner.fit, hX]
  · simp [GPEiVelocity.predict, GPEiVelocity.fit, GP.fit, BaseTuner.fit,
      GP.predict, randLt, hX, hy, hnr]

/-- Witness for C4: one observation, `r_minimum = 2`, coin-flip draw `1/2`. -/
theorem predict_below_r_minimum_uses_uniform_witness :
    (([[(1 : ℝ)]] : List (List ℝ)).length < (GP.init 2).r_minimum ∧
      ([(0.5 : ℝ)] : List ℝ).length = ([[(1 : ℝ)]] : List (List ℝ)).length ∧
      (0 : ℝ) ≤ 1 / 2) ∧
    (GP.predict (GP.fit (GP.init 2) [[1]] [0.5]) [0.3, 0.7] (fun _ => [])
        = Predictions.one [0.3, 0.7] ∧
      GPEiVelocity.predict (GPEiVelocity.fit (GP.init 2) [[1]] [0.5]) (1 / 2)
          [0.3, 0.7] (fun _ => [])
        = Predictions.one [0.3, 0.7]) :=
  ⟨⟨by simp [GP.init], by simp, by norm_num⟩,
    predict_below_r_minimum_uses_uniform (GP.init 2) [[1]] [0.5] [0.3, 0.7]
      (fun _ => []) (1 / 2) (by simp [GP.init]) (by simp) (by norm_num)⟩

/-- C5: on an `(n, 2)` prediction array with positive stdevs, `GPEi._acquire`
returns an index at which the expected improvement
`compute_ei μ σ t = σ·(z·Φ(z) + φ(z))`, `z = (μ - t)/σ`, `t = np.max(y)`,
is maximal over all candidates. -/
theorem ei_acquire_argmax (y : List ℝ) (rows : List (ℝ × ℝ))
    (hrows : rows ≠ []) (_hsig : ∀ r ∈ rows, 0 < r.2) :
    GPEi.acquire y (Predictions.two rows) < rows.length ∧
    ∀ j < rows.length,
      compute_ei (rows.getD j (0, 0)).1 (rows.getD j (0, 0)).2 (npMax y) ≤
        compute_ei (rows.getD (GPEi.acquire y (Predictions.two rows)) (0, 0)).1
          (rows.getD (GPEi.acquire y (Predictions.two rows)) (0, 0)).2
          (npMax y) := by
  set f : ℝ × ℝ → ℝ := fun r => compute_ei r.1 r.2 (npMax y) with hf
  have hmap : rows.map f ≠ [] := by simpa using hrows
  have hlt : npArgmax (rows.map f) < rows.length := by
    have := npArgmax_lt_length _ hmap
    simpa using this
  have hacq : GPEi.acquire y (Predictions.two rows) = npArgmax (rows.map f) :=
    rfl
  refine ⟨by rw [hacq]; exact hlt, ?_⟩
  intro j hj
  have h1 : (rows.map f).getD j 0 ≤ (rows.map f).getD (npArgmax (rows.map f)) 0 := by
    rw [getD_npArgmax _ hmap]
    exact getD_le_npMax _ j (by simpa using hj)
  rw [getD_map_lt f rows j hj (0, 0) 0, getD_map_lt f rows _ hlt (0, 0) 0] at h1
  rw [hacq]
  exact h1

/-- Witness for C5 at two candidates `(μ, σ) = (0, 1), (1, 1)` and `y = [1/2]`. -/
theorem ei_acquire_argmax_witness :
    (([((0 : ℝ), (1 : ℝ)), ((1 : ℝ), (1 : ℝ))] : List (ℝ × ℝ)) ≠ [] ∧
      ∀ r ∈ ([((0 : ℝ), (1 : ℝ)), ((1 : ℝ), (1 : ℝ))] : List (ℝ × ℝ)),
        0 < r.2) ∧
    (GPEi.acquire [(1 : ℝ) / 2]
        (Predictions.two [((0 : ℝ), (1 : ℝ)), ((1 : ℝ), (1 : ℝ))])
      < ([((0 : ℝ), (1 : ℝ)), ((1 : ℝ), (1 : ℝ))] : List (ℝ × ℝ)).length ∧
    ∀ j < ([((0 : ℝ), (1 : ℝ)), ((1 : ℝ), (1 : ℝ))] : List (ℝ × ℝ)).length,
      compute_ei
          (([((0 : ℝ), (1 : ℝ)), ((1 : ℝ), (1 : ℝ))] : List (ℝ × ℝ)).getD j (0, 0)).1
          (([((0 : ℝ), (1 : ℝ)), ((1 : ℝ), (1 : ℝ))] : List (ℝ × ℝ)).getD j (0, 0)).2
          (npMax [(1 : ℝ) / 2]) ≤
        compute_ei
          (([((0 : ℝ), (1 : ℝ)), ((1 : ℝ), (1 : ℝ))] : List (ℝ × ℝ)).getD
            (GPEi.acquire [(1 : ℝ) / 2]
              (Predictions.two [((0 : ℝ), (1 : ℝ)), ((1 : ℝ), (1 : ℝ))])) (0, 0)).1
          (([((0 : ℝ), (1 : ℝ)), ((1 : ℝ), (1 : ℝ))] : List (ℝ × ℝ)).getD
            (GPEi.acquire [(1 : ℝ) / 2]
              (Predictions.two [((0 : ℝ), (1 : ℝ)), ((1 : ℝ), (1 : ℝ))])) (0, 0)).2
          (npMax [(1 : ℝ) / 2])) :=
  ⟨⟨by simp, by intro r hr; simp only [List.mem_cons, List.not_mem_nil, or_false] at hr; rcases hr with h | h <;> simp [h]⟩,
    ei_acquire_argmax [(1 : ℝ) / 2] [((0 : ℝ), (1 : ℝ)), ((1 : ℝ), (1 : ℝ))]
      (by simp) (by intro r hr; simp only [List.mem_cons, List.not_mem_nil, or_false] at hr; rcases hr with h | h <;> simp [h])⟩

end

noncomputable section

/-! ### Facts about `velocities` and `top_y` -/

theorem velocities_sum (l : List ℝ) :
    (velocities l).sum = l.getLastD 0 - l.headD 0 := by
  induction l with
  | nil => simp [velocities]
  | cons a t ih =>
    cases t with
    | nil => simp [velocities]
    | cons b t2 =>
      have hv : velocities (a :: b :: t2) = (b - a) :: velocities (b :: t2) :=
        rfl
      rw [hv, List.sum_cons, ih]
      simp only [List.getLastD_cons, List.headD_cons]
      ring

theorem velocities_length (l : List ℝ) :
    (velocities l).length = l.length - 1 := by
  simp [velocities]

theorem velocities_nonneg (l : List ℝ) (hl : l.Sorted (· ≤ ·)) :
    ∀ v ∈ velocities l, 0 ≤ v := by
  induction l with
  | nil => simp [velocities]
  | cons a t ih =>
    cases t with
    | nil => simp [velocities]
    | cons b t2 =>
      intro v hv
      have hab : a ≤ b := (List.sorted_cons.mp hl).1 b (by simp)
      have htl : (b :: t2).Sorted (· ≤ ·) := (List.sorted_cons.mp hl).2
      have hv2 : v = b - a ∨ v ∈ velocities (b :: t2) := by
        have hc : velocities (a :: b :: t2) = (b - a) :: velocities (b :: t2) :=
          rfl
        rw [hc] at hv
        exact List.mem_cons.mp hv
      rcases hv2 with h | h
      · simp [h, sub_nonneg, hab]
      · exact ih htl v h

theorem top_y_sorted (y : List ℝ) : (top_y y).Sorted (· ≤ ·) :=
  List.Pairwise.sublist (List.drop_sublist _ _)
    (List.sorted_insertionSort (· ≤ ·) y)

theorem top_y_length (y : List ℝ) :
    (top_y y).length = min y.length N_BEST_Y := by
  simp only [top_y, List.length_drop, List.length_insertionSort]
  omega

/-- Helper: closed form of the POU stored by `GPEiVelocity.fit`. -/
theorem fit_POU_eq (s : TunerState) (X : List (List ℝ)) (y : List ℝ) :
    (GPEiVelocity.fit s X y).POU =
      if s.r_minimum ≤ y.length then
        npExp (FV.mul (FV.fin MULTIPLIER) (npMean (velocities (top_y y))))
      else FV.fin 0 := by
  by_cases hX : X.length < s.r_minimum <;>
    by_cases hy : s.r_minimum ≤ y.length <;>
      simp [GPEiVelocity.fit, GP.fit, BaseTuner.fit, hX, hy]

/-- C10: when at least two scores enter `top_y`, the mean velocity
telescopes to `(top_y.last - top_y.head) / (len(top_y) - 1)`, so the POU
stored by `GPEiVelocity.fit` depends only on the largest and the k-th
largest observed scores (intermediate top scores cancel). -/
theorem mean_velocity_telescopes (s : TunerState) (X : List (List ℝ))
    (y : List ℝ) (hr : s.r_minimum ≤ y.length)
    (hk : 2 ≤ (top_y y).length) :
    npMean (velocities (top_y y)) =
      FV.fin (((top_y y).getLastD 0 - (top_y y).headD 0) /
        (((top_y y).length : ℝ) - 1)) ∧
    (GPEiVelocity.fit s X y).POU =
      npExp (FV.fin (MULTIPLIER *
        (((top_y y).getLastD 0 - (top_y y).headD 0) /
          (((top_y y).length : ℝ) - 1)))) := by
  have hvlen : (velocities (top_y y)).length = (top_y y).length - 1 :=
    velocities_length _
  have hvne : velocities (top_y y) ≠ [] := by
    intro hnil
    rw [hnil] at hvlen
    simp at hvlen
    omega
  have hcast : (((top_y y).length - 1 : ℕ) : ℝ) = ((top_y y).length : ℝ) - 1 := by
    rw [Nat.cast_sub (by omega)]
    norm_num
  have hmean : npMean (velocities (top_y y)) =
      FV.fin (((top_y y).getLastD 0 - (top_y y).headD 0) /
        (((top_y y).length : ℝ) - 1)) := by
    rw [npMean, if_neg hvne, velocities_sum, hvlen, hcast]
  refine ⟨hmean, ?_⟩
  rw [fit_POU_eq, if_pos hr, hmean]
  simp [FV.mul]

/-- Witness for C10 at `y = [0.1, 0.5, 0.9]`, `r_minimum = 2`. -/
theorem mean_velocity_telescopes_witness :
    ((GP.init 2).r_minimum ≤ ([(0.1 : ℝ), 0.5, 0.9] : List ℝ).length ∧
      2 ≤ (top_y [(0.1 : ℝ), 0.5, 0.9]).length) ∧
    (npMean (velocities (top_y [(0.1 : ℝ), 0.5, 0.9])) =
      FV.fin (((top_y [(0.1 : ℝ), 0.5, 0.9]).getLastD 0 -
          (top_y [(0.1 : ℝ), 0.5, 0.9]).headD 0) /
        (((top_y [(0.1 : ℝ), 0.5, 0.9]).length : ℝ) - 1)) ∧
    (GPEiVelocity.fit (GP.init 2) [[(1 : ℝ)], [(2 : ℝ)], [(3 : ℝ)]]
        [(0.1 : ℝ), 0.5, 0.9]).POU =
      npExp (FV.fin (MULTIPLIER *
        (((top_y [(0.1 : ℝ), 0.5, 0.9]).getLastD 0 -
            (top_y [(0.1 : ℝ), 0.5, 0.9]).headD 0) /
          (((top_y [(0.1 : ℝ), 0.5, 0.9]).length : ℝ) - 1))))) :=
  ⟨⟨by simp [GP.init], by rw [top_y_length]; norm_num [N_BEST_Y]⟩,
    mean_velocity_telescopes (GP.init 2) [[(1 : ℝ)], [(2 : ℝ)], [(3 : ℝ)]]
      [(0.1 : ℝ), 0.5, 0.9] (by simp [GP.init])
      (by rw [top_y_length]; norm_num [N_BEST_Y])⟩

/-- C7 counterexample: with `r_minimum = 1` (allowed by the spec's
configuration surface `r_minimum >= 1`) and a single observation,
`velocities` is empty, `np.mean([])` is NaN, and the stored POU is NaN —
which does NOT satisfy `0 <= POU <= 1`. -/
theorem pou_single_observation_nan :
    (GPEiVelocity.fit (GP.init 1) [[(1 : ℝ)]] [(0.5 : ℝ)]).POU = FV.nan ∧
    ¬ (GPEiVelocity.fit (GP.init 1) [[(1 : ℝ)]] [(0.5 : ℝ)]).POU.mem01 := by
  have h : (GPEiVelocity.fit (GP.init 1) [[(1 : ℝ)]] [(0.5 : ℝ)]).POU
      = FV.nan := by
    rw [fit_POU_eq]
    simp [GP.init, top_y, N_BEST_Y, List.insertionSort, List.orderedInsert,
      velocities, npMean, FV.mul, npExp]
  exact ⟨h, by rw [h]; simp [FV.mem01]⟩

/-- C7 (amended): whenever the observation count is at least `r_minimum`
AND at least 2 (so that `top_y` has two or more entries — in particular for
the default `r_minimum = 2`), the stored POU is a finite real in `[0, 1]`. -/
theorem pou_mem01_of_two_obs (s : TunerState) (X : List (List ℝ))
    (y : List ℝ) (hr : s.r_minimum ≤ y.length) (h2 : 2 ≤ y.length) :
    (GPEiVelocity.fit s X y).POU.mem01 := by
  have hk : 2 ≤ (top_y y).length := by
    rw [top_y_length]
    simp only [N_BEST_Y]
    omega
  have hvlen : (velocities (top_y y)).length = (top_y y).length - 1 :=
    velocities_length _
  have hvne : velocities (top_y y) ≠ [] := by
    intro hnil
    rw [hnil] at hvlen
    simp at hvlen
    omega
  rw [fit_POU_eq, if_pos hr, npMean, if_neg hvne]
  simp only [FV.mul, npExp, FV.mem01]
  have hm : 0 ≤ (velocities (top_y y)).sum /
      ((velocities (top_y y)).length : ℝ) :=
    div_nonneg (List.sum_nonneg (velocities_nonneg _ (top_y_sorted y)))
      (Nat.cast_nonneg _)
  constructor
  · exact (Real.exp_pos _).le
  · rw [Real.exp_le_one_iff]
    calc MULTIPLIER * ((velocities (top_y y)).sum /
          ((velocities (top_y y)).length : ℝ))
        ≤ 0 * ((velocities (top_y y)).sum /
          ((velocities (top_y y)).length : ℝ)) := by
          apply mul_le_mul_of_nonneg_right _ hm
          norm_num [MULTIPLIER]
      _ = 0 := by ring

/-- Witness for C7 (amended) at `y = [0.1, 0.2]`, `r_minimum = 2`. -/
theorem pou_mem01_of_two_obs_witness :
    ((GP.init 2).r_minimum ≤ ([(0.1 : ℝ), 0.2] : List ℝ).length ∧
      2 ≤ ([(0.1 : ℝ), 0.2] : List ℝ).length) ∧
    (GPEiVelocity.fit (GP.init 2) [[(1 : ℝ)], [(2 : ℝ)]]
      [(0.1 : ℝ), 0.2]).POU.mem01 :=
  ⟨⟨by simp [GP.init], by simp⟩,
    pou_mem01_of_two_obs (GP.init 2) [[(1 : ℝ)], [(2 : ℝ)]] [(0.1 : ℝ), 0.2]
      (by simp [GP.init]) (by simp)⟩

end

noncomputable section

/-- The POU computed for the first scenario list
`y = [0.10, 0.12, 0.50, 0.51, 0.90]` is `exp(-100 * 0.2) = exp(-20)`
(velocities `[0.02, 0.38, 0.01, 0.39]`, mean `0.2`). -/
theorem scenario_first_pou :
    (GPEiVelocity.fit (GP.init 2)
        [[(1 : ℝ)], [(2 : ℝ)], [(3 : ℝ)], [(4 : ℝ)], [(5 : ℝ)]]
        [(0.10 : ℝ), 0.12, 0.50, 0.51, 0.90]).POU
      = FV.fin (Real.exp (-20)) := by
  have hs : List.Sorted (· ≤ ·) [(0.10 : ℝ), 0.12, 0.50, 0.51, 0.90] := by
    norm_num [List.sorted_cons]
  have htop : top_y [(0.10 : ℝ), 0.12, 0.50, 0.51, 0.90]
      = [(0.10 : ℝ), 0.12, 0.50, 0.51, 0.90] := by
    simp only [top_y]
    rw [List.Sorted.insertionSort_eq hs]
    norm_num [N_BEST_Y]
  rw [fit_POU_eq, if_pos (by simp [GP.init]), htop]
  have hvel : velocities [(0.10 : ℝ), 0.12, 0.50, 0.51, 0.90]
      = [0.12 - 0.10, 0.50 - 0.12, 0.51 - 0.50, 0.90 - 0.51] := rfl
  rw [hvel, npMean, if_neg (by simp)]
  norm_num [FV.mul, npExp, MULTIPLIER]

/-- The POU computed for the second scenario list
`y = [0.10, 0.50, 0.51, 0.89, 0.90]` is ALSO `exp(-100 * 0.2) = exp(-20)`
(velocities `[0.40, 0.01, 0.38, 0.01]`, same mean `0.2`). -/
theorem scenario_second_pou :
    (GPEiVelocity.fit (GP.init 2)
        [[(1 : ℝ)], [(2 : ℝ)], [(3 : ℝ)], [(4 : ℝ)], [(5 : ℝ)]]
        [(0.10 : ℝ), 0.50, 0.51, 0.89, 0.90]).POU
      = FV.fin (Real.exp (-20)) := by
  have hs : List.Sorted (· ≤ ·) [(0.10 : ℝ), 0.50, 0.51, 0.89, 0.90] := by
    norm_num [List.sorted_cons]
  have htop : top_y [(0.10 : ℝ), 0.50, 0.51, 0.89, 0.90]
      = [(0.10 : ℝ), 0.50, 0.51, 0.89, 0.90] := by
    simp only [top_y]
    rw [List.Sorted.insertionSort_eq hs]
    norm_num [N_BEST_Y]
  rw [fit_POU_eq, if_pos (by simp [GP.init]), htop]
  have hvel : velocities [(0.10 : ℝ), 0.50, 0.51, 0.89, 0.90]
      = [0.50 - 0.10, 0.51 - 0.50, 0.89 - 0.51, 0.90 - 0.89] := rfl
  rw [hvel, npMean, if_neg (by simp)]
  norm_num [FV.mul, npExp, MULTIPLIER]

/-- C1 counterexample: both scenario lists have mean velocity
`(0.90 - 0.10)/4 = 0.2` (the intermediate differences telescope), so the two
POUs are both `exp(-20)` and the first is NOT strictly less than the
second. -/
theorem pou_velocity_scenario_not_lt :
    ¬ FV.lt
      (GPEiVelocity.fit (GP.init 2)
          [[(1 : ℝ)], [(2 : ℝ)], [(3 : ℝ)], [(4 : ℝ)], [(5 : ℝ)]]
          [(0.10 : ℝ), 0.12, 0.50, 0.51, 0.90]).POU
      (GPEiVelocity.fit (GP.init 2)
          [[(1 : ℝ)], [(2 : ℝ)], [(3 : ℝ)], [(4 : ℝ)], [(5 : ℝ)]]
          [(0.10 : ℝ), 0.50, 0.51, 0.89, 0.90]).POU := by
  rw [scenario_first_pou, scenario_second_pou]
  simp [FV.lt]

/-- C1 (amended): the POU computed for `y = [0.10, 0.12, 0.50, 0.51, 0.90]`
EQUALS the POU computed for `y = [0.10, 0.50, 0.51, 0.89, 0.90]`; both are
`exp(-20)`. -/
theorem pou_velocity_scenario_eq :
    (GPEiVelocity.fit (GP.init 2)
        [[(1 : ℝ)], [(2 : ℝ)], [(3 : ℝ)], [(4 : ℝ)], [(5 : ℝ)]]
        [(0.10 : ℝ), 0.12, 0.50, 0.51, 0.90]).POU
      = (GPEiVelocity.fit (GP.init 2)
          [[(1 : ℝ)], [(2 : ℝ)], [(3 : ℝ)], [(4 : ℝ)], [(5 : ℝ)]]
          [(0.10 : ℝ), 0.50, 0.51, 0.89, 0.90]).POU ∧
    (GPEiVelocity.fit (GP.init 2)
        [[(1 : ℝ)], [(2 : ℝ)], [(3 : ℝ)], [(4 : ℝ)], [(5 : ℝ)]]
        [(0.10 : ℝ), 0.12, 0.50, 0.51, 0.90]).POU
      = FV.fin (Real.exp (-20)) :=
  ⟨by rw [scenario_first_pou, scenario_second_pou], scenario_first_pou⟩

end

noncomputable section

/-! ### Analytic facts about the Gaussian density and `compute_ei` -/

theorem normPdf_pos (t : ℝ) : 0 < normPdf t := by
  unfold normPdf
  have h2pi : (0 : ℝ) < 2 * Real.pi := by
    have := Real.pi_pos
    linarith
  exact mul_pos (inv_pos.mpr (Real.sqrt_pos.mpr h2pi)) (Real.exp_pos _)

theorem normPdf_continuous : Continuous normPdf := by
  unfold normPdf
  continuity

theorem hasDerivAt_normCdf (z : ℝ) : HasDerivAt normCdf (normPdf z) z := by
  have hint : IntervalIntegrable normPdf MeasureTheory.volume 0 z :=
    normPdf_continuous.intervalIntegrable 0 z
  have hmeas : StronglyMeasurableAtFilter normPdf (nhds z)
      MeasureTheory.volume :=
    normPdf_continuous.stronglyMeasurableAtFilter _ _
  have h := intervalIntegral.integral_hasDerivAt_right hint hmeas
    normPdf_continuous.continuousAt
  have h2 := h.const_add (1 / 2 : ℝ)
  exact h2

theorem hasDerivAt_normPdf (t : ℝ) :
    HasDerivAt normPdf (-t * normPdf t) t := by
  have h1 : HasDerivAt (fun x : ℝ => -(x ^ 2) / 2) (-t) t := by
    have h := (hasDerivAt_pow 2 t).neg.div_const 2
    convert h using 1
    ring
  have h2 := h1.exp
  have h3 := HasDerivAt.const_mul ((Real.sqrt (2 * Real.pi))⁻¹) h2
  have hval : -t * normPdf t
      = (Real.sqrt (2 * Real.pi))⁻¹ * (Real.exp (-(t ^ 2) / 2) * -t) := by
    unfold normPdf
    ring
  rw [hval]
  exact h3

/-- The derivative of `compute_ei` in `sigma` (at `sigma ≠ 0`) is the
Gaussian density at `z = (mu - t)/sigma`. -/
theorem hasDerivAt_compute_ei (mu t σ : ℝ) (hσ : σ ≠ 0) :
    HasDerivAt (fun s => compute_ei mu s t) (normPdf ((mu - t) / σ)) σ := by
  set d := mu - t with hd
  have hz : HasDerivAt (fun s : ℝ => d / s) (-(d / σ ^ 2)) σ := by
    have h := hasDerivAt_inv hσ
    have h2 := HasDerivAt.const_mul d h
    have he : (fun s : ℝ => d / s) = fun s : ℝ => d * s⁻¹ := by
      funext s
      rw [div_eq_mul_inv]
    rw [he]
    convert h2 using 1
    field_simp
  have hΦ : HasDerivAt (fun s : ℝ => normCdf (d / s))
      (normPdf (d / σ) * -(d / σ ^ 2)) σ := by
    have h := (hasDerivAt_normCdf (d / σ)).comp σ hz
    simpa [Function.comp] using h
  have hφ : HasDerivAt (fun s : ℝ => normPdf (d / s))
      (-(d / σ) * normPdf (d / σ) * -(d / σ ^ 2)) σ := by
    have h := (hasDerivAt_normPdf (d / σ)).comp σ hz
    simpa [Function.comp] using h
  have hA : HasDerivAt (fun s : ℝ => (d / s) * normCdf (d / s))
      (-(d / σ ^ 2) * normCdf (d / σ)
        + (d / σ) * (normPdf (d / σ) * -(d / σ ^ 2))) σ := hz.mul hΦ
  have hAB := hA.add hφ
  have hf := (hasDerivAt_id' σ).mul hAB
  have hfun : (fun s => compute_ei mu s t)
      = fun s : ℝ => s * ((d / s) * normCdf (d / s) + normPdf (d / s)) := by
    funext s
    simp only [compute_ei, hd]
  rw [hfun]
  convert hf using 1
  field_simp
  ring

theorem strictMono_compute_ei (mu t : ℝ) :
    StrictMonoOn (fun s => compute_ei mu s t) (Set.Ioi 0) := by
  apply strictMonoOn_of_deriv_pos (convex_Ioi 0)
  · intro x hx
    exact (hasDerivAt_compute_ei mu t x (ne_of_gt hx)).continuousAt.continuousWithinAt
  · intro x hx
    rw [interior_Ioi] at hx
    rw [(hasDerivAt_compute_ei mu t x (ne_of_gt hx)).deriv]
    exact normPdf_pos _

/-- C9: for fixed `mu` and `t` (so fixed `mu - t`), the expected improvement
`compute_ei` is monotone non-decreasing in the stdev `sigma` on `sigma > 0`
(its `sigma`-derivative is the everywhere-positive Gaussian density). -/
theorem compute_ei_monotone_in_sigma (mu t s1v s2v : ℝ) (h1 : 0 < s1v)
    (h12 : s1v ≤ s2v) :
    compute_ei mu s1v t ≤ compute_ei mu s2v t := by
  rcases eq_or_lt_of_le h12 with h | h
  · rw [h]
  · exact le_of_lt (strictMono_compute_ei mu t (Set.mem_Ioi.mpr h1)
      (Set.mem_Ioi.mpr (lt_trans h1 h)) h)

/-- Witness for C9 at `mu = 0`, `t = 0`, `sigma` from `1` to `2`. -/
theorem compute_ei_monotone_in_sigma_witness :
    ((0 : ℝ) < 1 ∧ (1 : ℝ) ≤ 2) ∧ compute_ei 0 1 0 ≤ compute_ei 0 2 0 :=
  ⟨⟨by norm_num, by norm_num⟩,
    compute_ei_monotone_in_sigma 0 0 1 2 (by norm_num) (by norm_num)⟩

end
